import Mathlib

/-!
Shallow embedding of the two components of this repository:

* the in-display fingerprint bridge (`src/fod/FingerprintInscreen.cpp`):
  geometry resolution from system properties, the sysfs write operations,
  the background `fod_ui` poll loop and the `handleAcquired` event handler;
* the audio effect forwarder
  (`src/parts/src/org/mokee/settings/dirac/DiracUtils.java`):
  the lazily initialized `DiracSound` singleton and the `setMusic`,
  `isDiracEnabled`, `setLevel` and `setHeadsetType` operations.

External effects (HIDL callback invocations, sysfs writes, calls into the
proprietary `DiracSound` library) are embedded as explicit event lists or
state records, so every operation is an executable Lean function over them.
-/

namespace Fod

/-- Constant `FINGERPRINT_ACQUIRED_VENDOR` from `FingerprintInscreen.cpp`. -/
def FINGERPRINT_ACQUIRED_VENDOR : Int := 6

/-- Model of the registered `IFingerprintInscreenCallback`: the two remote
notifications `onFingerDown` / `onFingerUp` each either succeed or return a
not-ok `Return<void>` status, which is all `handleAcquired` observes. -/
structure CallbackBehavior where
  fingerDownOk : Bool
  fingerUpOk : Bool
  deriving DecidableEq, Repr

/-- Notifications a `handleAcquired` call can deliver to the callback. -/
inductive Notification where
  | fingerDown
  | fingerUp
  deriving DecidableEq, Repr

/-- Observable outcome of one `handleAcquired` call: its boolean return
value, the notifications invoked on the callback (in order), and how many
error log lines were emitted for not-ok callback returns. -/
structure AcqResult where
  ret : Bool
  notified : List Notification
  errorsLogged : Nat
  deriving DecidableEq, Repr

/-- Embedding of `FingerprintInscreen::handleAcquired` (lines 211-236):
with no callback registered it returns false immediately; with a callback,
`acquiredInfo == FINGERPRINT_ACQUIRED_VENDOR` and `vendorCode == 22` invokes
`onFingerDown` (logging an error when the return is not ok) and returns
true, `vendorCode == 23` likewise with `onFingerUp`; every other case
returns false with no notification. -/
def handleAcquired (mCallback : Option CallbackBehavior)
    (acquiredInfo vendorCode : Int) : AcqResult :=
  match mCallback with
  | none => ⟨false, [], 0⟩
  | some cb =>
    if acquiredInfo = FINGERPRINT_ACQUIRED_VENDOR then
      if vendorCode = 22 then
        ⟨true, [Notification.fingerDown], if cb.fingerDownOk then 0 else 1⟩
      else if vendorCode = 23 then
        ⟨true, [Notification.fingerUp], if cb.fingerUpOk then 0 else 1⟩
      else ⟨false, [], 0⟩
    else ⟨false, [], 0⟩

/-- Characters skipped by strtoll's leading-whitespace scan (C `isspace`). -/
def isCSpace (c : Char) : Bool :=
  c = ' ' || c = '\t' || c = '\n' || c = '\x0b' || c = '\x0c' || c = '\r'

/-- Value of a list of decimal digit characters. -/
def digitsVal (ds : List Char) : Nat :=
  ds.foldl (fun n c => 10 * n + (c.toNat - '0'.toNat)) 0

/-- Lower bound of `int32_t`. -/
def int32Min : Int := -(2 ^ 31)

/-- Upper bound of `int32_t`. -/
def int32Max : Int := 2 ^ 31 - 1

/-- Embedding of `android::base::ParseInt<int32_t>` as `GetIntListProperty`
uses it: strtoll base-10 semantics (optional leading C whitespace, optional
sign, at least one digit, the whole string consumed), then a range check
against the given bounds. -/
def ParseInt (s : String) (lo hi : Int) : Option Int :=
  let cs := s.toList.dropWhile isCSpace
  let p : Int × List Char :=
    match cs with
    | '-' :: rest => (-1, rest)
    | '+' :: rest => (1, rest)
    | rest => (1, rest)
  if p.2.isEmpty then none
  else if p.2.all Char.isDigit then
    let v : Int := p.1 * (digitsVal p.2 : Int)
    if lo ≤ v ∧ v ≤ hi then some v else none
  else none

/-- Splitting a character list at every comma; the empty list yields one
empty piece, and a trailing comma yields a trailing empty piece. -/
def splitOnComma : List Char → List (List Char)
  | [] => [[]]
  | c :: rest =>
    if c = ',' then [] :: splitOnComma rest
    else
      match splitOnComma rest with
      | [] => [[c]]
      | t :: ts => (c :: t) :: ts

/-- Embedding of `android::base::Split(s, ",")`: split on every comma, an
empty string yielding one empty element. -/
def Split (s : String) : List String :=
  (splitOnComma s.toList).map String.mk

/-- Embedding of `android::base::GetProperty(key, default_value)` over an
explicit property environment. -/
def GetProperty (env : String → Option String) (key defaultValue : String) :
    String :=
  (env key).getD defaultValue

/-- Parsing half of `GetIntListProperty` as a pure function of the property
value string: succeeds iff the comma-split value has as many elements as
the default list and every element parses as an `int32_t`. -/
def parseIntListStr (value : String) (defaults : List Int) :
    Option (List Int) :=
  let strings := Split value
  if strings.length = defaults.length then
    strings.mapM (fun s => ParseInt s int32Min int32Max)
  else none

/-- Embedding of `GetListProperty` composed into `GetIntListProperty`'s
parse: reads the property (empty default) and parses it. -/
def parsedIntList (env : String → Option String) (key : String)
    (defaults : List Int) : Option (List Int) :=
  parseIntListStr (GetProperty env key "") defaults

/-- Embedding of `GetIntListProperty` (lines 67-95): the parsed values, or
the defaults together with a warning when the property is missing,
malformed or has the wrong element count. -/
def GetIntListProperty (env : String → Option String) (key : String)
    (defaults : List Int) : List Int × Bool :=
  match parsedIntList env key defaults with
  | some values => (values, false)
  | none => (defaults, true)

/-- Constant `FOD_DEFAULT_X`. -/
def FOD_DEFAULT_X : Int := 445

/-- Constant `FOD_DEFAULT_Y`. -/
def FOD_DEFAULT_Y : Int := 1910

/-- Constant `FOD_DEFAULT_SIZE`. -/
def FOD_DEFAULT_SIZE : Int := 190

/-- State the `FingerprintInscreen` constructor fixes: the three geometry
values and whether the non-square-size warning was logged. -/
structure FingerprintInscreen where
  fodPosX : Int
  fodPosY : Int
  fodSize : Int
  sizeWarning : Bool
  deriving DecidableEq, Repr

/-- Embedding of the geometry part of the `FingerprintInscreen` constructor
(lines 129-143): position from the location property with defaults
(445, 1910), size from the size property with defaults (190, 190), warning
and max when width and height differ. -/
def mkFingerprintInscreen (env : String → Option String) :
    FingerprintInscreen :=
  let pos := (GetIntListProperty env "persist.vendor.sys.fp.fod.location.X_Y"
    [FOD_DEFAULT_X, FOD_DEFAULT_Y]).1
  let sz := (GetIntListProperty env
    "persist.vendor.sys.fp.fod.size.width_height"
    [FOD_DEFAULT_SIZE, FOD_DEFAULT_SIZE]).1
  { fodPosX := pos.getD 0 0
    fodPosY := pos.getD 1 0
    fodSize := max (sz.getD 0 0) (sz.getD 1 0)
    sizeWarning := decide (sz.getD 0 0 ≠ sz.getD 1 0) }

/-- Embedding of `FingerprintInscreen::getPositionX`. -/
def getPositionX (f : FingerprintInscreen) : Int := f.fodPosX

/-- Embedding of `FingerprintInscreen::getPositionY`. -/
def getPositionY (f : FingerprintInscreen) : Int := f.fodPosY

/-- Embedding of `FingerprintInscreen::getSize`. -/
def getSize (f : FingerprintInscreen) : Int := f.fodSize

/-- Constant `COMMAND_NIT`. -/
def COMMAND_NIT : Int := 10

/-- Constant `PARAM_NIT_630_FOD`. -/
def PARAM_NIT_630_FOD : Int := 1

/-- Constant `PARAM_NIT_NONE`. -/
def PARAM_NIT_NONE : Int := 0

/-- Embedding of `readBool` (lines 97-114) over the outcome of its two
system calls: a non-zero lseek return or a failed one-byte read yields
false; otherwise the byte read is compared against the zero character. -/
def readBool (lseekRc : Int) (readResult : Option Char) : Bool :=
  if lseekRc ≠ 0 then false
  else
    match readResult with
    | none => false
    | some c => c != '0'

/-- Embedding of one wakeup of the background poll loop (lines 158-167): a
negative poll return logs and continues with no HAL call; otherwise exactly
one `extCmd(COMMAND_NIT, param)` call is issued, `PARAM_NIT_630_FOD` when
`readBool` holds and `PARAM_NIT_NONE` otherwise. The returned list holds
the (command, parameter) pairs sent to the HAL proxy on this wakeup. -/
def pollLoopIter (pollRc lseekRc : Int) (readResult : Option Char) :
    List (Int × Int) :=
  if pollRc < 0 then []
  else
    [(COMMAND_NIT,
      if readBool lseekRc readResult then PARAM_NIT_630_FOD
      else PARAM_NIT_NONE)]

/-- Constant `FOD_PRESSED_PATH`. -/
def FOD_PRESSED_PATH : String :=
  "/sys/devices/platform/soc/soc:qcom,dsi-display-primary/fod_pressed"

/-- Constant `FOD_PRESSED_ON`. -/
def FOD_PRESSED_ON : Int := 1

/-- Constant `FOD_PRESSED_OFF`. -/
def FOD_PRESSED_OFF : Int := 0

/-- Embedding of the sysfs helper `set(path, value)` (lines 56-60) over an
explicit write log: each call appends one (path, value) write. -/
def sysfsSet (log : List (String × Int)) (path : String) (value : Int) :
    List (String × Int) :=
  log ++ [(path, value)]

/-- Embedding of `FingerprintInscreen::onPress` (lines 191-194). -/
def onPress (log : List (String × Int)) : List (String × Int) :=
  sysfsSet log FOD_PRESSED_PATH FOD_PRESSED_ON

/-- Embedding of `FingerprintInscreen::onRelease` (lines 196-199). -/
def onRelease (log : List (String × Int)) : List (String × Int) :=
  sysfsSet log FOD_PRESSED_PATH FOD_PRESSED_OFF

end Fod

namespace Dirac

/-- Characters of the Java regex character class backslash-s. -/
def isJavaSpace (c : Char) : Bool :=
  c = ' ' || c = '\t' || c = '\n' || c = '\x0b' || c = '\x0c' || c = '\r'

/-- Removal of trailing Java whitespace from a character list. -/
def rstrip (cs : List Char) : List Char :=
  (cs.reverse.dropWhile isJavaSpace).reverse

/-- Core of Java's `String.split` on the regex whitespace-comma-whitespace
pattern of `DiracUtils.setLevel`: the scan walks the characters once; in
skip mode the whitespace right after a comma is consumed; a comma emits the
accumulated piece with the whitespace just before the comma stripped;
every other character extends the accumulated piece. -/
def splitCsvAux : Bool → List Char → List Char → List (List Char)
  | _, [], acc => [acc]
  | skip, c :: cs, acc =>
    if skip && isJavaSpace c then splitCsvAux true cs acc
    else if c = ',' then rstrip acc :: splitCsvAux true cs []
    else splitCsvAux false cs (acc ++ [c])

/-- Removal of trailing empty pieces, as Java `split` with limit 0 does
once the pattern matched. -/
def dropTrailingEmpty (l : List (List Char)) : List (List Char) :=
  (l.reverse.dropWhile List.isEmpty).reverse

/-- Embedding of the Java call `preset.split` with the
whitespace-comma-whitespace regex: when the input holds no comma the
pattern cannot match and the whole input is the single piece (Java returns
the receiver itself); otherwise the scanned pieces with trailing empty
pieces removed. -/
def javaSplitCsvL (cs : List Char) : List (List Char) :=
  if cs.contains ',' then dropTrailingEmpty (splitCsvAux false cs [])
  else [cs]

/-- Parse of an unsigned decimal literal: digits with an optional dot and
at least one digit overall, kept exact as a rational. -/
def parseUnsignedDec (cs : List Char) : Option ℚ :=
  let intPart := cs.takeWhile Char.isDigit
  let rest := cs.dropWhile Char.isDigit
  match rest with
  | [] => if intPart.isEmpty then none else some (Fod.digitsVal intPart : ℚ)
  | '.' :: frac =>
    if frac.all Char.isDigit && !(intPart.isEmpty && frac.isEmpty) then
      some ((Fod.digitsVal (intPart ++ frac) : ℚ) / 10 ^ frac.length)
    else none
  | _ => none

/-- Model of the JDK call `Float.valueOf` restricted to plain decimal
literals: surrounding whitespace is ignored, an optional sign precedes
digits with an optional dot, and anything else fails with a
NumberFormatException (`none`). Exponent, hexadecimal, NaN, Infinity and
suffix forms are outside the modelled domain, and the value is kept exact
as a rational instead of rounding to binary32. -/
def floatValueOf (cs : List Char) : Option ℚ :=
  let t := rstrip (cs.dropWhile isJavaSpace)
  match t with
  | '-' :: rest => (parseUnsignedDec rest).map (fun q => -q)
  | '+' :: rest => parseUnsignedDec rest
  | rest => parseUnsignedDec rest

/-- Model of the proprietary `DiracSound` effect object: its sources are
a vendor library outside this repository, so it is embedded as a record of
the state the forwarded setter calls establish. -/
structure DiracSound where
  music : Int
  headsetType : Int
  levels : List (Nat × ℚ)
  deriving DecidableEq, Repr

/-- Construction `new DiracSound(0, 0)` performed by the lazy initializer. -/
def newDiracSound (_a _b : Int) : DiracSound :=
  { music := 0, headsetType := 0, levels := [] }

/-- Static state of `DiracUtils`: the singleton `mDiracSound` handle,
instrumented with the number of `DiracSound` constructions performed so
far. -/
structure DiracUtilsState where
  mDiracSound : Option DiracSound
  constructions : Nat
  deriving DecidableEq, Repr

/-- State before any call: the static field starts null and nothing has
been constructed. -/
def initialState : DiracUtilsState :=
  { mDiracSound := none, constructions := 0 }

/-- Embedding of `DiracUtils.initialize` (lines 28-31; the Java name is a
Lean keyword): constructs `new DiracSound(0, 0)` only when the handle is
still null. -/
def initDirac (st : DiracUtilsState) : DiracUtilsState :=
  match st.mDiracSound with
  | none =>
    { mDiracSound := some (newDiracSound 0 0),
      constructions := st.constructions + 1 }
  | some _ => st

/-- Unchecked Java exceptions the `DiracUtils` operations can raise. -/
inductive JavaError where
  | nullPointer
  | numberFormat
  deriving DecidableEq, Repr

/-- Embedding of `DiracUtils.setMusic` (lines 33-36): forwards the flag as
1/0 to `mDiracSound.setMusic`, raising a NullPointerException when the
handle is null. -/
def setMusic (snd : Option DiracSound) (enable : Bool) :
    Except JavaError DiracSound :=
  match snd with
  | none => Except.error JavaError.nullPointer
  | some d => Except.ok { d with music := if enable then 1 else 0 }

/-- Embedding of `DiracSound.getMusic` as `DiracUtils` observes it. -/
def getMusic (d : DiracSound) : Int := d.music

/-- Embedding of `DiracUtils.isDiracEnabled` (lines 38-40; the unused
`Context` argument is dropped): null check, then the music state compared
with 1. -/
def isDiracEnabled (snd : Option DiracSound) : Bool :=
  match snd with
  | none => false
  | some d => getMusic d == 1

/-- Embedding of `DiracUtils.setHeadsetType` (lines 51-54): forwards the
integer unchanged, raising a NullPointerException when the handle is
null. -/
def setHeadsetType (snd : Option DiracSound) (paramInt : Int) :
    Except JavaError DiracSound :=
  match snd with
  | none => Except.error JavaError.nullPointer
  | some d => Except.ok { d with headsetType := paramInt }

/-- Loop of `DiracUtils.setLevel` over the indexed split pieces. Java
evaluates `Float.valueOf(level[band])` before the invoke on the receiver,
so a malformed element raises NumberFormatException even when the handle
is null, and a null handle raises NullPointerException on the first
invoke. The ok result lists the (band, value) pairs forwarded to
`DiracSound.setLevel`, in call order. -/
def setLevelLoop (snd : Option DiracSound) :
    List (Nat × List Char) → Except JavaError (List (Nat × ℚ))
  | [] => Except.ok []
  | (band, el) :: rest =>
    match floatValueOf el with
    | none => Except.error JavaError.numberFormat
    | some v =>
      match snd with
      | none => Except.error JavaError.nullPointer
      | some _ => (setLevelLoop snd rest).map (fun tl => (band, v) :: tl)

/-- Embedding of `DiracUtils.setLevel` (lines 42-49): split the preset on
the whitespace-comma-whitespace regex, then forward each parsed element
with its band index 0, 1, ... in order. -/
def setLevel (snd : Option DiracSound) (preset : String) :
    Except JavaError (List (Nat × ℚ)) :=
  setLevelLoop snd (javaSplitCsvL preset.toList).enum

/-- Flattening of the tail of a rendered comma-separated input: for each
element after the first, whitespace, a comma, whitespace, then the
element's characters. -/
def renderTail : List ((List Char × List Char) × List Char) → List Char
  | [] => []
  | x :: xs => x.1.1 ++ ',' :: (x.1.2 ++ (x.2 ++ renderTail xs))

/-- Rendering of a comma-separated input from a first element and a list
of (whitespace-pair, element) tails. -/
def renderCsv (t : List Char) (rest : List ((List Char × List Char) × List Char)) :
    List Char :=
  t ++ renderTail rest

/-- Character-shape of a well-formed element: nonempty, with no Java
whitespace and no comma. -/
def isTokChars (t : List Char) : Bool :=
  !t.isEmpty && t.all (fun c => !isJavaSpace c && !(c = ','))

/-- Well-formed numeric element: well-shaped characters that parse as a
decimal literal. -/
def isNumElem (t : List Char) : Bool :=
  isTokChars t && (floatValueOf t).isSome

end Dirac

namespace Fod

/-- Claim C1: `handleAcquired(acquiredInfo, vendorCode)` returns true iff a
callback is registered, `acquiredInfo` equals the vendor sentinel 6 and
`vendorCode` is 22 or 23; when true it invokes exactly one notification
(finger-down for 22, finger-up for 23); in every other case, including when
no callback is registered, it returns false and invokes no notification. -/
theorem C1_handleAcquired_characterization
    (mCallback : Option CallbackBehavior) (acquiredInfo vendorCode : Int) :
    ((handleAcquired mCallback acquiredInfo vendorCode).ret = true ↔
      (mCallback.isSome = true ∧ acquiredInfo = 6 ∧
        (vendorCode = 22 ∨ vendorCode = 23))) ∧
    (handleAcquired mCallback acquiredInfo vendorCode).notified =
      (if mCallback.isSome = true ∧ acquiredInfo = 6 ∧ vendorCode = 22 then
        [Notification.fingerDown]
      else if mCallback.isSome = true ∧ acquiredInfo = 6 ∧ vendorCode = 23 then
        [Notification.fingerUp]
      else []) := by
  cases mCallback <;>
    simp only [handleAcquired, FINGERPRINT_ACQUIRED_VENDOR, Option.isSome] <;>
    split_ifs <;> simp_all

/-- Claim C9: when `handleAcquired` matches (callback registered,
`acquiredInfo = 6`, `vendorCode` 22 or 23), a not-ok return from the remote
notification is logged and never propagated: the call still returns true,
so its boolean result does not signal delivery success. -/
theorem C9_callback_failure_logged_not_propagated (cb : CallbackBehavior) :
    ((handleAcquired (some cb) 6 22).ret = true ∧
      (handleAcquired (some cb) 6 22).errorsLogged =
        (if cb.fingerDownOk then 0 else 1)) ∧
    ((handleAcquired (some cb) 6 23).ret = true ∧
      (handleAcquired (some cb) 6 23).errorsLogged =
        (if cb.fingerUpOk then 0 else 1)) := by
  refine ⟨⟨?_, ?_⟩, ⟨?_, ?_⟩⟩ <;> simp [handleAcquired, FINGERPRINT_ACQUIRED_VENDOR]

/-- Claim C3: when the position property is missing, malformed or has the
wrong element count (the parse falls through to the defaults), the getters
return 445 and 1910; when the position property is "100,200" and the size
property is "50,50", the getters return 100, 200 and 50; the getters always
return the values fixed at construction with no error condition. -/
theorem C3_geometry_defaults_and_parsed
    (env₀ env₁ : String → Option String)
    (h₀ : parsedIntList env₀ "persist.vendor.sys.fp.fod.location.X_Y"
      [FOD_DEFAULT_X, FOD_DEFAULT_Y] = none)
    (h₁ : env₁ "persist.vendor.sys.fp.fod.location.X_Y" = some "100,200")
    (h₂ : env₁ "persist.vendor.sys.fp.fod.size.width_height" =
      some "50,50") :
    (getPositionX (mkFingerprintInscreen env₀) = 445 ∧
      getPositionY (mkFingerprintInscreen env₀) = 1910) ∧
    (getPositionX (mkFingerprintInscreen env₁) = 100 ∧
      getPositionY (mkFingerprintInscreen env₁) = 200 ∧
      getSize (mkFingerprintInscreen env₁) = 50) ∧
    (∀ f : FingerprintInscreen, getPositionX f = f.fodPosX ∧
      getPositionY f = f.fodPosY ∧ getSize f = f.fodSize) := by
  refine ⟨?_, ?_, fun f => ⟨rfl, rfl, rfl⟩⟩
  · simp only [FOD_DEFAULT_X, FOD_DEFAULT_Y] at h₀
    simp [mkFingerprintInscreen, GetIntListProperty, h₀, getPositionX,
      getPositionY, FOD_DEFAULT_X, FOD_DEFAULT_Y, List.getD]
  · have e₁ : parsedIntList env₁ "persist.vendor.sys.fp.fod.location.X_Y"
        [FOD_DEFAULT_X, FOD_DEFAULT_Y] = some [100, 200] := by
      simp only [parsedIntList, GetProperty, h₁, Option.getD_some]
      decide
    have e₂ : parsedIntList env₁ "persist.vendor.sys.fp.fod.size.width_height"
        [FOD_DEFAULT_SIZE, FOD_DEFAULT_SIZE] = some [50, 50] := by
      simp only [parsedIntList, GetProperty, h₂, Option.getD_some]
      decide
    simp only [FOD_DEFAULT_X, FOD_DEFAULT_Y, FOD_DEFAULT_SIZE] at e₁ e₂
    simp [mkFingerprintInscreen, GetIntListProperty, e₁, e₂, getPositionX,
      getPositionY, getSize, FOD_DEFAULT_X, FOD_DEFAULT_Y, FOD_DEFAULT_SIZE,
      List.getD]

/-- Claim C7: when the size property parses to a non-square pair such as
"50,60", the resolved sensor size is the larger value (60) and a warning is
recorded. -/
theorem C7_nonsquare_size_takes_max_with_warning
    (env : String → Option String)
    (h : env "persist.vendor.sys.fp.fod.size.width_height" = some "50,60") :
    getSize (mkFingerprintInscreen env) = 60 ∧
    (mkFingerprintInscreen env).sizeWarning = true := by
  have e : parsedIntList env "persist.vendor.sys.fp.fod.size.width_height"
      [FOD_DEFAULT_SIZE, FOD_DEFAULT_SIZE] = some [50, 60] := by
    simp only [parsedIntList, GetProperty, h, Option.getD_some]
    decide
  simp only [FOD_DEFAULT_SIZE] at e
  constructor <;>
    simp [mkFingerprintInscreen, GetIntListProperty, e, getSize,
      FOD_DEFAULT_SIZE, List.getD]

/-- Witness for C3 at concrete property environments: the everywhere-missing
environment and the environment holding "100,200" and "50,50". -/
theorem C3_geometry_witness :
    (getPositionX (mkFingerprintInscreen (fun _ => none)) = 445 ∧
      getPositionY (mkFingerprintInscreen (fun _ => none)) = 1910) ∧
    (getPositionX (mkFingerprintInscreen (fun k =>
        if k = "persist.vendor.sys.fp.fod.location.X_Y" then some "100,200"
        else if k = "persist.vendor.sys.fp.fod.size.width_height" then
          some "50,50"
        else none)) = 100 ∧
      getPositionY (mkFingerprintInscreen (fun k =>
        if k = "persist.vendor.sys.fp.fod.location.X_Y" then some "100,200"
        else if k = "persist.vendor.sys.fp.fod.size.width_height" then
          some "50,50"
        else none)) = 200 ∧
      getSize (mkFingerprintInscreen (fun k =>
        if k = "persist.vendor.sys.fp.fod.location.X_Y" then some "100,200"
        else if k = "persist.vendor.sys.fp.fod.size.width_height" then
          some "50,50"
        else none)) = 50) := by
  have h := C3_geometry_defaults_and_parsed (fun _ => none)
    (fun k =>
      if k = "persist.vendor.sys.fp.fod.location.X_Y" then some "100,200"
      else if k = "persist.vendor.sys.fp.fod.size.width_height" then
        some "50,50"
      else none)
    (by decide) (by decide) (by decide)
  exact ⟨h.1, h.2.1⟩

/-- Witness for C7 at the concrete environment holding size "50,60". -/
theorem C7_nonsquare_witness :
    getSize (mkFingerprintInscreen (fun k =>
      if k = "persist.vendor.sys.fp.fod.size.width_height" then some "50,60"
      else none)) = 60 ∧
    (mkFingerprintInscreen (fun k =>
      if k = "persist.vendor.sys.fp.fod.size.width_height" then some "50,60"
      else none)).sizeWarning = true :=
  C7_nonsquare_size_takes_max_with_warning
    (fun k =>
      if k = "persist.vendor.sys.fp.fod.size.width_height" then some "50,60"
      else none)
    (by decide)

/-- Claim C4: on a wakeup of the poll loop with a non-negative poll return
and a successful one-byte read, exactly one extCmd call is issued, with
command code 10 and parameter 1 when the byte is non-zero (differs from the
zero character) and 0 otherwise. -/
theorem C4_poll_wakeup_issues_one_extcmd
    (pollRc : Int) (c : Char) (h : 0 ≤ pollRc) :
    pollLoopIter pollRc 0 (some c) =
      [(10, if c ≠ '0' then 1 else 0)] := by
  have hn : ¬pollRc < 0 := not_lt.mpr h
  simp only [pollLoopIter, hn, if_false, readBool, if_neg
    (by simp : ¬(0 : Int) ≠ 0), COMMAND_NIT, PARAM_NIT_630_FOD,
    PARAM_NIT_NONE]
  by_cases hc : c = '0' <;> simp [hc]

/-- Witness for C4 at poll return 1 and byte '1'. -/
theorem C4_poll_wakeup_witness :
    (0 : Int) ≤ 1 ∧
    pollLoopIter 1 0 (some '1') = [(10, if '1' ≠ '0' then 1 else 0)] :=
  ⟨by decide, C4_poll_wakeup_issues_one_extcmd 1 '1' (by decide)⟩

/-- Claim C8: onPress followed by onRelease appends exactly the pressed-on
value 1 and then the pressed-off value 0 at the fod_pressed path, in that
order, and writes to no other path. -/
theorem C8_press_release_write_sequence (log : List (String × Int)) :
    onRelease (onPress log) =
      log ++ [(FOD_PRESSED_PATH, 1), (FOD_PRESSED_PATH, 0)] := by
  simp [onRelease, onPress, sysfsSet, FOD_PRESSED_ON, FOD_PRESSED_OFF]

end Fod

namespace Dirac

theorem isJavaSpace_ne_comma {c : Char} (h : isJavaSpace c = true) :
    ¬(c = ',') := by
  intro hc
  subst hc
  exact absurd h (by decide)

theorem dropWhile_of_head_false {α : Type} {p : α → Bool} :
    ∀ {l : List α}, (∀ a ∈ l, p a = false) → l.dropWhile p = l := by
  intro l h
  cases l with
  | nil => rfl
  | cons a l => simp [List.dropWhile_cons, h a (by simp)]

theorem rstrip_concat_space (acc : List Char) {c : Char}
    (h : isJavaSpace c = true) : rstrip (acc ++ [c]) = rstrip acc := by
  simp [rstrip, List.dropWhile_cons, h]

theorem rstrip_of_no_space {t : List Char}
    (h : ∀ c ∈ t, isJavaSpace c = false) : rstrip t = t := by
  have : t.reverse.dropWhile isJavaSpace = t.reverse :=
    dropWhile_of_head_false (fun a ha => h a (List.mem_reverse.mp ha))
  simp [rstrip, this]

theorem splitCsvAux_append_tok :
    ∀ (tok : List Char),
      (∀ c ∈ tok, isJavaSpace c = false ∧ ¬(c = ',')) →
      ∀ rest acc, splitCsvAux false (tok ++ rest) acc =
        splitCsvAux false rest (acc ++ tok) := by
  intro tok
  induction tok with
  | nil => intro _ rest acc; simp
  | cons c tok ih =>
    intro h rest acc
    have hc := h c (by simp)
    simp only [List.cons_append, splitCsvAux, Bool.false_and,
      Bool.false_eq_true, if_false, if_neg hc.2, List.append_eq]
    rw [ih (fun x hx => h x (by simp [hx])) rest (acc ++ [c])]
    simp

theorem splitCsvAux_ws_comma :
    ∀ (ws : List Char), (∀ c ∈ ws, isJavaSpace c = true) →
      ∀ rest acc, splitCsvAux false (ws ++ ',' :: rest) acc =
        rstrip acc :: splitCsvAux true rest [] := by
  intro ws
  induction ws with
  | nil =>
    intro _ rest acc
    simp [splitCsvAux]
  | cons c ws ih =>
    intro h rest acc
    have hc : isJavaSpace c = true := h c (by simp)
    simp only [List.cons_append, splitCsvAux, Bool.false_and,
      Bool.false_eq_true, if_false, if_neg (isJavaSpace_ne_comma hc),
      List.append_eq]
    rw [ih (fun x hx => h x (by simp [hx])) rest (acc ++ [c]),
      rstrip_concat_space acc hc]

theorem splitCsvAux_skip_ws :
    ∀ (ws : List Char), (∀ c ∈ ws, isJavaSpace c = true) →
      ∀ rest, splitCsvAux true (ws ++ rest) [] = splitCsvAux true rest [] := by
  intro ws
  induction ws with
  | nil => intro _ rest; rfl
  | cons c ws ih =>
    intro h rest
    have hc : isJavaSpace c = true := h c (by simp)
    simp only [List.cons_append, splitCsvAux, hc, Bool.true_and, if_true,
      List.append_eq]
    exact ih (fun x hx => h x (by simp [hx])) rest

theorem splitCsvAux_skip_exit {c : Char} (hc : isJavaSpace c = false)
    (cs acc : List Char) :
    splitCsvAux true (c :: cs) acc = splitCsvAux false (c :: cs) acc := by
  simp [splitCsvAux, hc]

theorem isTokChars_props {t : List Char} (h : isTokChars t = true) :
    t ≠ [] ∧ ∀ c ∈ t, isJavaSpace c = false ∧ ¬(c = ',') := by
  refine ⟨?_, ?_⟩
  · intro h0
    subst h0
    exact absurd h (by decide)
  · intro c hc
    simp only [isTokChars, Bool.and_eq_true, List.all_eq_true] at h
    have h2 := h.2 c hc
    simp only [Bool.and_eq_true, Bool.not_eq_true'] at h2
    exact ⟨h2.1, of_decide_eq_false h2.2⟩

theorem splitCsvAux_renderCsv :
    ∀ (rest : List ((List Char × List Char) × List Char)) (t : List Char),
      isTokChars t = true →
      (∀ x ∈ rest, (∀ c ∈ x.1.1, isJavaSpace c = true) ∧
        (∀ c ∈ x.1.2, isJavaSpace c = true) ∧ isTokChars x.2 = true) →
      splitCsvAux false (renderCsv t rest) [] =
        t :: rest.map (fun x => x.2) := by
  intro rest
  induction rest with
  | nil =>
    intro t ht _
    have htc := (isTokChars_props ht).2
    simp only [renderCsv, renderTail, List.map_nil]
    rw [splitCsvAux_append_tok t htc]
    simp [splitCsvAux]
  | cons x rest ih =>
    intro t ht hall
    have htc := (isTokChars_props ht).2
    have hx := hall x (by simp)
    simp only [renderCsv, renderTail, List.map_cons]
    rw [splitCsvAux_append_tok t htc, List.nil_append,
      splitCsvAux_ws_comma x.1.1 hx.1,
      rstrip_of_no_space (fun c hc => (htc c hc).1),
      splitCsvAux_skip_ws x.1.2 hx.2.1]
    obtain ⟨hne, hxc⟩ := isTokChars_props hx.2.2
    obtain ⟨c, cs, hcs⟩ := List.exists_cons_of_ne_nil hne
    have hmain := ih x.2 hx.2.2 (fun y hy => hall y (by simp [hy]))
    simp only [renderCsv] at hmain
    rw [hcs, List.cons_append,
      splitCsvAux_skip_exit (hxc c (by simp [hcs])).1,
      ← List.cons_append, ← hcs, hmain]

theorem isEmpty_false_of_ne_nil {α : Type} {l : List α} (h : l ≠ []) :
    l.isEmpty = false := by
  cases l with
  | nil => exact absurd rfl h
  | cons a l => rfl

theorem contains_comma_false {t : List Char}
    (h : ∀ c ∈ t, ¬(c = ',')) : t.contains ',' = false := by
  rw [Bool.eq_false_iff]
  intro hc
  exact h ',' (List.elem_iff.mp hc) rfl

theorem javaSplitCsvL_renderCsv
    (t : List Char) (rest : List ((List Char × List Char) × List Char))
    (ht : isTokChars t = true)
    (hall : ∀ x ∈ rest, (∀ c ∈ x.1.1, isJavaSpace c = true) ∧
      (∀ c ∈ x.1.2, isJavaSpace c = true) ∧ isTokChars x.2 = true) :
    javaSplitCsvL (renderCsv t rest) = t :: rest.map (fun x => x.2) := by
  cases rest with
  | nil =>
    have hnc : (renderCsv t []).contains ',' = false := by
      apply contains_comma_false
      intro c hc
      exact ((isTokChars_props ht).2 c (by
        simpa [renderCsv, renderTail] using hc)).2
    simp only [renderCsv, renderTail, List.append_nil] at hnc ⊢
    unfold javaSplitCsvL
    rw [hnc]
    simp
  | cons x rest =>
    have hc : (renderCsv t (x :: rest)).contains ',' = true := by
      have : (',' : Char) ∈ renderCsv t (x :: rest) := by
        simp [renderCsv, renderTail]
      simpa [List.contains] using List.elem_iff.mpr this
    have hpieces := splitCsvAux_renderCsv (x :: rest) t ht hall
    have hne : ∀ p ∈ t :: (x :: rest).map (fun y => y.2), p.isEmpty = false := by
      intro p hp
      rcases List.mem_cons.mp hp with hp | hp
      · subst hp
        exact isEmpty_false_of_ne_nil (isTokChars_props ht).1
      · obtain ⟨y, hy, hyp⟩ := List.mem_map.mp hp
        subst hyp
        exact isEmpty_false_of_ne_nil (isTokChars_props (hall y hy).2.2).1
    rw [javaSplitCsvL, if_pos hc, hpieces]
    unfold dropTrailingEmpty
    rw [dropWhile_of_head_false (fun p hp => hne p (List.mem_reverse.mp hp)),
      List.reverse_reverse]

theorem setLevelLoop_ok (d : DiracSound) :
    ∀ (toks : List (List Char)) (n : Nat),
      (∀ tk ∈ toks, (floatValueOf tk).isSome = true) →
      ∃ pairs, setLevelLoop (some d) (toks.enumFrom n) = Except.ok pairs ∧
        pairs.map Prod.fst = List.range' n toks.length ∧
        pairs.map (fun p => some p.2) = toks.map floatValueOf := by
  intro toks
  induction toks with
  | nil => intro n _; exact ⟨[], rfl, rfl, rfl⟩
  | cons tk toks ih =>
    intro n h
    obtain ⟨v, hv⟩ := Option.isSome_iff_exists.mp (h tk (by simp))
    obtain ⟨pairs, hok, hfst, hsnd⟩ :=
      ih (n + 1) (fun y hy => h y (by simp [hy]))
    refine ⟨(n, v) :: pairs, ?_, ?_, ?_⟩
    · simp only [List.enumFrom, setLevelLoop, hv, hok, Except.map]
    · simpa [List.range'] using hfst
    · simpa [hv] using hsnd

theorem initDirac_handle_isSome (st : DiracUtilsState) :
    (initDirac st).mDiracSound.isSome = true := by
  cases h : st.mDiracSound <;> simp [initDirac, h]

theorem initDirac_of_some (st : DiracUtilsState)
    (h : st.mDiracSound.isSome = true) : initDirac st = st := by
  cases hs : st.mDiracSound with
  | none => rw [hs] at h; simp at h
  | some d => simp [initDirac, hs]

theorem initDirac_idem (st : DiracUtilsState) :
    initDirac (initDirac st) = initDirac st :=
  initDirac_of_some _ (initDirac_handle_isSome st)

theorem initDirac_iterate (n : Nat) (hn : 1 ≤ n) :
    initDirac^[n] initialState = initDirac initialState := by
  induction n with
  | zero => exact absurd hn (by decide)
  | succ k ih =>
    cases k with
    | zero => simp
    | succ m =>
      rw [Function.iterate_succ_apply', ih (by omega), initDirac_idem]

/-- Claim C5: the lazy initializer is idempotent: any number of calls from
the initial state performs exactly one DiracSound construction, and once
the handle exists every further call leaves the state unchanged. -/
theorem C5_initDirac_idempotent_single_construction
    (st : DiracUtilsState) (n : Nat) (hn : 1 ≤ n) :
    initDirac (initDirac st) = initDirac st ∧
    initDirac^[n] initialState = initDirac initialState ∧
    (initDirac^[n] initialState).constructions = 1 := by
  refine ⟨initDirac_idem st, initDirac_iterate n hn, ?_⟩
  rw [initDirac_iterate n hn]
  rfl

/-- Witness for C5 at the initial state and two calls. -/
theorem C5_initDirac_witness :
    1 ≤ 2 ∧
    (initDirac (initDirac initialState) = initDirac initialState ∧
      initDirac^[2] initialState = initDirac initialState ∧
      (initDirac^[2] initialState).constructions = 1) :=
  ⟨by decide,
    C5_initDirac_idempotent_single_construction initialState 2 (by decide)⟩

/-- Claim C6: isDiracEnabled returns true iff the underlying effect object
exists and its queried music state equals 1; it returns false otherwise,
including before the initializer has ever been called. -/
theorem C6_isDiracEnabled_iff (snd : Option DiracSound) :
    (isDiracEnabled snd = true ↔
      ∃ d, snd = some d ∧ getMusic d = 1) ∧
    isDiracEnabled initialState.mDiracSound = false := by
  refine ⟨?_, rfl⟩
  cases snd with
  | none => simp [isDiracEnabled]
  | some d => simp [isDiracEnabled, getMusic]

/-- Claim C10: with the handle still null (initializer never called),
setMusic and setHeadsetType raise a NullPointerException, setLevel raises
one on every non-empty valid input (a split with at least one element whose
first element parses), and only isDiracEnabled guards the uninitialized
state, returning false. -/
theorem C10_null_handle_npe
    (e : Bool) (ty : Int) (preset : String) (p : List Char)
    (rest : List (List Char))
    (hsplit : javaSplitCsvL preset.toList = p :: rest)
    (hp : (floatValueOf p).isSome = true) :
    setMusic none e = Except.error JavaError.nullPointer ∧
    setHeadsetType none ty = Except.error JavaError.nullPointer ∧
    setLevel none preset = Except.error JavaError.nullPointer ∧
    isDiracEnabled none = false := by
  refine ⟨rfl, rfl, ?_, rfl⟩
  obtain ⟨v, hv⟩ := Option.isSome_iff_exists.mp hp
  simp only [setLevel, hsplit, List.enum, List.enumFrom, setLevelLoop, hv]

/-- Witness for C10 at the valid two-element preset "1,2". -/
theorem C10_null_handle_witness :
    setMusic none true = Except.error JavaError.nullPointer ∧
    setHeadsetType none 3 = Except.error JavaError.nullPointer ∧
    setLevel none "1,2" = Except.error JavaError.nullPointer ∧
    isDiracEnabled none = false :=
  C10_null_handle_npe true 3 "1,2" ['1'] [['2']] (by decide) (by decide)

/-- Claim C2: for every valid comma-separated numeric string — a numeric
element followed by whitespace-comma-whitespace separated numeric elements,
N elements in all — setLevel splits the string into its N elements with the
whitespace surrounding each element trimmed, and forwards exactly N
(band, value) pairs to the effect object, band indices 0..N-1 in input
order, each value the parsed number of the element at that position. -/
theorem C2_setLevel_forwards_all_bands_in_order
    (d : DiracSound) (t : List Char)
    (rest : List ((List Char × List Char) × List Char))
    (ht : isNumElem t = true)
    (hrest : ∀ x ∈ rest, (∀ c ∈ x.1.1, isJavaSpace c = true) ∧
      (∀ c ∈ x.1.2, isJavaSpace c = true) ∧ isNumElem x.2 = true) :
    Except.map (fun pairs => pairs.map Prod.fst)
        (setLevel (some d) (String.mk (renderCsv t rest))) =
      Except.ok (List.range (t :: rest.map (fun x => x.2)).length) ∧
    Except.map (fun pairs => pairs.map (fun q => some q.2))
        (setLevel (some d) (String.mk (renderCsv t rest))) =
      Except.ok ((t :: rest.map (fun x => x.2)).map floatValueOf) := by
  have htc : isTokChars t = true := by
    simp only [isNumElem, Bool.and_eq_true] at ht
    exact ht.1
  have htp : (floatValueOf t).isSome = true := by
    simp only [isNumElem, Bool.and_eq_true] at ht
    exact ht.2
  have hall : ∀ x ∈ rest, (∀ c ∈ x.1.1, isJavaSpace c = true) ∧
      (∀ c ∈ x.1.2, isJavaSpace c = true) ∧ isTokChars x.2 = true := by
    intro x hx
    obtain ⟨h1, h2, h3⟩ := hrest x hx
    simp only [isNumElem, Bool.and_eq_true] at h3
    exact ⟨h1, h2, h3.1⟩
  have hsplit := javaSplitCsvL_renderCsv t rest htc hall
  have htoks : ∀ tk ∈ t :: rest.map (fun x => x.2),
      (floatValueOf tk).isSome = true := by
    intro tk htk
    rcases List.mem_cons.mp htk with h | h
    · subst h
      exact htp
    · obtain ⟨y, hy, hyp⟩ := List.mem_map.mp h
      subst hyp
      have h3 := (hrest y hy).2.2
      simp only [isNumElem, Bool.and_eq_true] at h3
      exact h3.2
  obtain ⟨pairs, hok, hfst, hsnd⟩ :=
    setLevelLoop_ok d (t :: rest.map (fun x => x.2)) 0 htoks
  have hpre : (String.mk (renderCsv t rest)).toList = renderCsv t rest := rfl
  have hsetLevel : setLevel (some d) (String.mk (renderCsv t rest)) =
      Except.ok pairs := by
    simp only [setLevel, hpre, hsplit, List.enum]
    exact hok
  constructor
  · rw [hsetLevel]
    simp [Except.map, hfst, List.range_eq_range']
  · rw [hsetLevel]
    simp [Except.map, hsnd]

/-- Witness for C2 at the two-element input rendered from elements "1" and
"2" with a space before the comma (the string "1 ,2"). -/
theorem C2_setLevel_witness :
    Except.map (fun pairs => pairs.map Prod.fst)
        (setLevel (some (newDiracSound 0 0))
          (String.mk (renderCsv ['1'] ([(([' '], []), ['2'])] :
            List ((List Char × List Char) × List Char))))) =
      Except.ok (List.range
        (['1'] :: ([(([' '], []), ['2'])] :
          List ((List Char × List Char) × List Char)).map
            (fun x => x.2)).length) ∧
    Except.map (fun pairs => pairs.map (fun q => some q.2))
        (setLevel (some (newDiracSound 0 0))
          (String.mk (renderCsv ['1'] ([(([' '], []), ['2'])] :
            List ((List Char × List Char) × List Char))))) =
      Except.ok ((['1'] :: ([(([' '], []), ['2'])] :
        List ((List Char × List Char) × List Char)).map
          (fun x => x.2)).map floatValueOf) :=
  C2_setLevel_forwards_all_bands_in_order (newDiracSound 0 0) ['1']
    [(([' '], []), ['2'])] (by decide) (by decide)

end Dirac
